import Mathlib

/-!
Shallow embedding of the `fs` package (filesystem statistics module):
`src/fs/fs.go` and `src/fs/types.go`.

Machine integers (`uint64`, `uint`) are modelled as `Nat`; the only place the
64-bit width matters is `strconv.ParseUint(_, 10, 64)`, whose range check is
modelled explicitly.  Go maps keyed by strings are modelled as association
lists with insert-replaces semantics.  Fallible Go functions returning
`(T, error)` are modelled with `Option`/an explicit outcome type; a Go runtime
panic (out-of-bounds slice index) is a distinguished outcome.  The
`PartitionCache` and `FsStatsCache` interfaces of `types.go` have no
implementation under `src/`, so calls through them are modelled from the
spec's contracts (sections 4.1-4.2) as a snapshot list and oracle functions;
each such spot is marked in its doc comment.
-/

/-- `type FsType string` from `src/fs/types.go`. -/
abbrev FsType := String

/-- `type partition struct` from `src/fs/types.go`. -/
structure partition where
  mountpoint : String
  major : Nat
  minor : Nat
  fsType : String
  blockSize : Nat
deriving DecidableEq, Repr

/-- `type DeviceInfo struct` from `src/fs/types.go`. -/
structure DeviceInfo where
  Device : String
  Major : Nat
  Minor : Nat
deriving DecidableEq, Repr

/-- `type DiskStats struct` from `src/fs/types.go`: 11 `uint64` counters. -/
structure DiskStats where
  ReadsCompleted : Nat
  ReadsMerged : Nat
  SectorsRead : Nat
  ReadTime : Nat
  WritesCompleted : Nat
  WritesMerged : Nat
  SectorsWritten : Nat
  WriteTime : Nat
  IoInProgress : Nat
  IoTime : Nat
  WeightedIoTime : Nat
deriving DecidableEq, Repr

/-- The zero value a fresh Go `DiskStats` struct has before any assignment. -/
def zeroDiskStats : DiskStats := ⟨0, 0, 0, 0, 0, 0, 0, 0, 0, 0, 0⟩

/-- `type Fs struct` from `src/fs/types.go` (the embedded `DeviceInfo` field is
named after its type, as in Go). -/
structure Fs where
  DeviceInfo : DeviceInfo
  type : FsType
  Capacity : Nat
  Free : Nat
  Available : Nat
  Inodes : Nat
  InodesFree : Nat
  DiskStats : DiskStats
deriving DecidableEq, Repr

/-- Result sextuple of `FsStatsCache.FsStats` (type, capacity, free, available,
inodes, inodesFree); the cache itself is an interface whose implementation is
outside this package, so calls are modelled by an oracle function
`String → partition → Option FsStatsRet`, `none` standing for a returned
error. -/
structure FsStatsRet where
  fsType : FsType
  capacity : Nat
  free : Nat
  available : Nat
  inodes : Nat
  inodesFree : Nat
deriving DecidableEq, Repr

/-- Go `unicode.IsSpace` restricted to the byte range that can occur in
`/proc/diskstats`-like sources: space, tab, newline, carriage return,
vertical tab, form feed. -/
def isGoSpace (c : Char) : Bool :=
  c = ' ' || c = '\t' || c = '\n' || c = '\r' || c.toNat = 11 || c.toNat = 12

/-- Accumulator pass over the characters: `cur` holds the characters of the
current field in reverse. -/
def fieldsAux : List Char → List Char → List String
  | [], cur => if cur.isEmpty then [] else [String.mk cur.reverse]
  | c :: cs, cur =>
    if isGoSpace c then
      if cur.isEmpty then fieldsAux cs []
      else String.mk cur.reverse :: fieldsAux cs []
    else fieldsAux cs (c :: cur)

/-- `strings.Fields`: splits around runs of whitespace, no empty fields. -/
def goFields (s : String) : List String :=
  fieldsAux s.data []

def isLowerAZ (c : Char) : Bool := 'a' ≤ c && c ≤ 'z'

def isDigitC (c : Char) : Bool := '0' ≤ c && c ≤ '9'

/-- Matches `[a-z]+\d*` against a whole character list (the classes are
disjoint, so the greedy split is the only possible one). -/
def lettersThenDigits (cs : List Char) : Bool :=
  let ls := cs.takeWhile isLowerAZ
  !ls.isEmpty && (cs.drop ls.length).all isDigitC

/-- `partitionRegex = regexp.MustCompile("^(?:(?:s|xv)d[a-z]+\\d*|dm-\\d+)$")`
from `src/fs/fs.go` line 177, as a total matcher on whole strings. -/
def partitionRegexMatch (s : String) : Bool :=
  match s.toList with
  | 's' :: 'd' :: rest => lettersThenDigits rest
  | 'x' :: 'v' :: 'd' :: rest => lettersThenDigits rest
  | 'd' :: 'm' :: '-' :: rest => !rest.isEmpty && rest.all isDigitC
  | _ => false

def digitsVal (cs : List Char) : Nat :=
  cs.foldl (fun a c => a * 10 + (c.toNat - 48)) 0

/-- `strconv.ParseUint(s, 10, 64)`: nonempty, decimal digits only, value must
fit in 64 bits; `none` models a returned error. -/
def parseUint64 (s : String) : Option Nat :=
  let cs := s.toList
  if cs.isEmpty then none
  else if cs.all isDigitC then
    let v := digitsVal cs
    if v < 2 ^ 64 then some v else none
  else none

/-- Association-list model of a Go `map[string]DiskStats` assignment
`m[k] = v` (replaces an existing binding). -/
def mapInsert (m : List (String × DiskStats)) (k : String) (v : DiskStats) :
    List (String × DiskStats) :=
  match m with
  | [] => [(k, v)]
  | (k', v') :: rest =>
    if k' = k then (k, v) :: rest else (k', v') :: mapInsert rest k v

/-- Go map lookup `m[k]`. -/
def mapLookup (m : List (String × DiskStats)) (k : String) : Option DiskStats :=
  match m with
  | [] => none
  | (k', v') :: rest => if k' = k then some v' else mapLookup rest k

/-- Outcome of running Go code that can return a value, return an error, or
panic at runtime. -/
inductive ParseOutcome (α : Type) where
  | ok (v : α)
  | err
  | panic
deriving DecidableEq, Repr

/-- Outcome of the body of the scanner loop in `getDiskStatsMap` for one line. -/
inductive LineResult where
  | skip
  | entry (dev : String) (ds : DiskStats)
  | err
  | panic
deriving DecidableEq, Repr

/-- Builds the `DiskStats` literal of `src/fs/fs.go` lines 214-226 from the
parsed `stats` slice (the guard `len(stats) < 11` has already passed, so the
indices 0-10 are in bounds and `getD` equals plain indexing). -/
def mkDiskStats (stats : List Nat) : DiskStats :=
  { ReadsCompleted := stats.getD 0 0
    ReadsMerged := stats.getD 1 0
    SectorsRead := stats.getD 2 0
    ReadTime := stats.getD 3 0
    WritesCompleted := stats.getD 4 0
    WritesMerged := stats.getD 5 0
    SectorsWritten := stats.getD 6 0
    WriteTime := stats.getD 7 0
    IoInProgress := stats.getD 8 0
    IoTime := stats.getD 9 0
    WeightedIoTime := stats.getD 10 0 }

/-- Parses optionally every word of a list; `none` if any fails. -/
def parseAllUint64 : List String → Option (List Nat)
  | [] => some []
  | w :: ws =>
    match parseUint64 w, parseAllUint64 ws with
    | some v, some vs => some (v :: vs)
    | _, _ => none

/-- The body of the scanner loop of `getDiskStatsMap` (`src/fs/fs.go` lines
193-227) for a single line.  `words[2]` is read with no length guard, so a
line with fewer than three fields panics (out-of-bounds slice index).
`path.Join("/dev", words[2])` reduces to plain concatenation because a name
accepted by `partitionRegex` contains no separators or dot segments. -/
def parseDiskStatsLine (line : String) : LineResult :=
  let words := goFields line
  match words[2]? with
  | none => LineResult.panic
  | some w2 =>
    if !partitionRegexMatch w2 then LineResult.skip
    else
      let numWords := words.drop 3
      if numWords.length < 11 then LineResult.err
      else
        match parseAllUint64 numWords with
        | none => LineResult.err
        | some stats => LineResult.entry ("/dev/" ++ w2) (mkDiskStats stats)

/-- The scanner loop of `getDiskStatsMap`, threading the accumulated map. -/
def getDiskStatsMapLines :
    List String → List (String × DiskStats) → ParseOutcome (List (String × DiskStats))
  | [], acc => ParseOutcome.ok acc
  | l :: ls, acc =>
    match parseDiskStatsLine l with
    | LineResult.skip => getDiskStatsMapLines ls acc
    | LineResult.entry d s => getDiskStatsMapLines ls (mapInsert acc d s)
    | LineResult.err => ParseOutcome.err
    | LineResult.panic => ParseOutcome.panic

/-- The three ways `os.Open(diskStatsFile)` can go in `getDiskStatsMap`:
the file does not exist, it exists but opening fails, or it opens and yields
a list of lines. -/
inductive DiskStatsSource where
  | missing
  | openError
  | content (lines : List String)

/-- `getDiskStatsMap` (`src/fs/fs.go` lines 179-230): a missing file yields an
empty map and no error; any other open failure is returned as an error;
otherwise every line is processed by the scanner loop. -/
def getDiskStatsMap (src : DiskStatsSource) : ParseOutcome (List (String × DiskStats)) :=
  match src with
  | DiskStatsSource.missing => ParseOutcome.ok []
  | DiskStatsSource.openError => ParseOutcome.err
  | DiskStatsSource.content lines => getDiskStatsMapLines lines []

/-- Assembly of one `Fs` record in `getFilteredFsInfo` (lines 111-125):
the stat sextuple fills `Type` through `InodesFree`, `DeviceInfo` is built
from the cache key and partition, and `DiskStats` keeps its zero value. -/
def mkFs (device : String) (p : partition) (r : FsStatsRet) : Fs :=
  { DeviceInfo := { Device := device, Major := p.major, Minor := p.minor }
    type := r.fsType
    Capacity := r.capacity
    Free := r.free
    Available := r.available
    Inodes := r.inodes
    InodesFree := r.inodesFree
    DiskStats := zeroDiskStats }

/-- The `ApplyOverPartitions` pass of `getFilteredFsInfo` (lines 101-127).
Modelled from the spec: `PartitionCache.ApplyOverPartitions` applies the
closure to every cached entry in the snapshot's order (its implementation is
outside `src/`); the closure here never returns an error, so the pass cannot
fail.  A failed `FsStats` call is logged and skipped, anything else appends
an assembled record. -/
def applyOverPartitionsAcc
    (fsStats : String → partition → Option FsStatsRet)
    (filter : String → partition → Bool) :
    List (String × partition) → List Fs → List Fs
  | [], acc => acc
  | (d, p) :: rest, acc =>
    if !filter d p then applyOverPartitionsAcc fsStats filter rest acc
    else
      match fsStats d p with
      | none => applyOverPartitionsAcc fsStats filter rest acc
      | some r => applyOverPartitionsAcc fsStats filter rest (acc ++ [mkFs d p r])

/-- One iteration of the body of the merge loop (lines 140-151): look the
device up in the disk-stats map and, on a hit, set `DiskStats` on the
iteration variable. -/
def mergeOne (m : List (String × DiskStats)) (fs : Fs) : Fs :=
  match mapLookup m fs.DeviceInfo.Device with
  | some ds => { fs with DiskStats := ds }
  | none => fs

/-- The merge loop `for _, fs := range filesystemsOut { ... fs.DiskStats = diskStats }`
(lines 140-151).  In Go, `fs` is a copy of the slice element, so the
assignment mutates only that copy and the slice itself is left unchanged;
the per-iteration computation is `mergeOne`, and its result is discarded. -/
def mergeDiskStatsLoop (fss : List Fs) (m : List (String × DiskStats)) : List Fs :=
  fss.map (fun fs => (fun _ => fs) (mergeOne m fs))

/-- `getFilteredFsInfo` (`src/fs/fs.go` lines 98-155).  The partition cache is
the snapshot list `cache`, `fsStats` is the `FsStatsCache.FsStats` oracle,
and `src` is the content of `/proc/diskstats`. -/
def getFilteredFsInfo
    (cache : List (String × partition))
    (fsStats : String → partition → Option FsStatsRet)
    (filter : String → partition → Bool)
    (withIoStats : Bool) (src : DiskStatsSource) : ParseOutcome (List Fs) :=
  let filesystemsOut := applyOverPartitionsAcc fsStats filter cache []
  if withIoStats then
    match getDiskStatsMap src with
    | ParseOutcome.err => ParseOutcome.err
    | ParseOutcome.panic => ParseOutcome.panic
    | ParseOutcome.ok diskStatsMap =>
      ParseOutcome.ok (mergeDiskStatsLoop filesystemsOut diskStatsMap)
  else ParseOutcome.ok filesystemsOut

/-- `GetFsInfoForMounts` (lines 157-162): keep partitions whose mountpoint is
in the mount set. -/
def GetFsInfoForMounts
    (cache : List (String × partition))
    (fsStats : String → partition → Option FsStatsRet)
    (mountSet : List String) (withIoStats : Bool) (src : DiskStatsSource) :
    ParseOutcome (List Fs) :=
  getFilteredFsInfo cache fsStats (fun _ p => mountSet.contains p.mountpoint) withIoStats src

/-- `GetFsInfoForDevices` (lines 164-169): keep partitions whose device is in
the device set. -/
def GetFsInfoForDevices
    (cache : List (String × partition))
    (fsStats : String → partition → Option FsStatsRet)
    (deviceSet : List String) (withIoStats : Bool) (src : DiskStatsSource) :
    ParseOutcome (List Fs) :=
  getFilteredFsInfo cache fsStats (fun d _ => deviceSet.contains d) withIoStats src

/-- `GetGlobalFsInfo` (lines 171-175): no filtering. -/
def GetGlobalFsInfo
    (cache : List (String × partition))
    (fsStats : String → partition → Option FsStatsRet)
    (withIoStats : Bool) (src : DiskStatsSource) : ParseOutcome (List Fs) :=
  getFilteredFsInfo cache fsStats (fun _ _ => true) withIoStats src

/-- `func major(devNumber uint64) uint` (lines 232-234). -/
def major (devNumber : Nat) : Nat :=
  (devNumber >>> 8) &&& 0xfff

/-- `func minor(devNumber uint64) uint` (lines 236-238). -/
def minor (devNumber : Nat) : Nat :=
  (devNumber &&& 0xff) ||| ((devNumber >>> 12) &&& 0xfff00)

/-- `GetDirFsDevice` (lines 240-253).  `syscall.Stat` is modelled by the
oracle `statDev` giving the packed device number of the directory (or `none`
on failure); `PartitionCache.DeviceInfoForMajorMinor` — whose implementation
is outside `src/` — is modelled from the spec as an exact composite-key
lookup oracle. -/
def GetDirFsDevice
    (statDev : String → Option Nat)
    (deviceInfoForMajorMinor : Nat → Nat → Option DeviceInfo)
    (dir : String) : Option DeviceInfo :=
  match statDev dir with
  | none => none
  | some devNumber => deviceInfoForMajorMinor (major devNumber) (minor devNumber)

/-- Environment of one `GetDirUsage` call: which of the fallible process
steps succeed, and what the subprocess prints.  Wall-clock time and the kill
timer are not modelled; a `du` killed by the timer simply surfaces as
`waitOk = false`. -/
structure ExecEnv where
  stdoutPipeOk : Bool
  stderrPipeOk : Bool
  startOk : Bool
  waitOk : Bool
  stdout : String

/-- Result of `GetDirUsage`: an error, a runtime panic (indexing the empty
field list of an empty `du` output), or a byte count. -/
inductive DuResult where
  | err
  | panicked
  | ok (bytes : Nat)
deriving DecidableEq, Repr

/-- `GetDirUsage` (`src/fs/fs.go` lines 255-292).  The first component
records whether the external `du` command was started (`cmd.Start`
succeeded); every early `return` before `cmd.Start` yields `false`.  The
`timeout` argument only feeds the kill timer, which is untimed here and so
unused. -/
def GetDirUsage (dir : String) (timeout : Nat) (env : ExecEnv) : Bool × DuResult :=
  if dir = "" then (false, DuResult.err)
  else if !env.stdoutPipeOk then (false, DuResult.err)
  else if !env.stderrPipeOk then (false, DuResult.err)
  else if !env.startOk then (false, DuResult.err)
  else if !env.waitOk then (true, DuResult.err)
  else
    match (goFields env.stdout).get? 0 with
    | none => (true, DuResult.panicked)
    | some w =>
      match parseUint64 w with
      | none => (true, DuResult.err)
      | some usageInKb => (true, DuResult.ok (usageInKb * 1024))

/-- Declarative description of the enumeration pass: the records of the cache
entries that pass the filter and whose stat call succeeds, in cache order. -/
def enumFs (cache : List (String × partition))
    (fsStats : String → partition → Option FsStatsRet)
    (filter : String → partition → Bool) : List Fs :=
  (cache.filter fun e => filter e.1 e.2).filterMap
    fun e => (fsStats e.1 e.2).map (mkFs e.1 e.2)

/-- A well-formed `/proc/diskstats` line for `sda1`. -/
def sda1Line : String := "8 1 sda1 40 35 288 177 7 9 22 108 1 330 338"

def sda1Stats : DiskStats := ⟨40, 35, 288, 177, 7, 9, 22, 108, 1, 330, 338⟩

def sda1Partition : partition := ⟨"/", 8, 1, "vfs", 4096⟩

def sda1FsStats : String → partition → Option FsStatsRet :=
  fun d _ => if d = "/dev/sda1" then some ⟨"vfs", 1000, 400, 380, 100, 60⟩ else none

/-- The record `getFilteredFsInfo` actually returns for `sda1`: note the zero
`DiskStats`. -/
def sda1Fs : Fs :=
  { DeviceInfo := ⟨"/dev/sda1", 8, 1⟩
    type := "vfs"
    Capacity := 1000
    Free := 400
    Available := 380
    Inodes := 100
    InodesFree := 60
    DiskStats := zeroDiskStats }

def c6Partition : partition := ⟨"/data", 8, 17, "vfs", 4096⟩

def c6FsStats : String → partition → Option FsStatsRet :=
  fun d _ => if d = "/dev/sdb1" then some ⟨"vfs", 1000, 400, 380, 100, 60⟩ else none

def c6Fs : Fs :=
  { DeviceInfo := ⟨"/dev/sdb1", 8, 17⟩
    type := "vfs"
    Capacity := 1000
    Free := 400
    Available := 380
    Inodes := 100
    InodesFree := 60
    DiskStats := zeroDiskStats }

def c4BadPartition : partition := ⟨"/var", 8, 33, "vfs", 4096⟩

def c4Cache : List (String × partition) :=
  [("/dev/sda1", sda1Partition), ("/dev/sdc1", c4BadPartition)]

def lineKey (l : String) : Option String :=
  match parseDiskStatsLine l with
  | LineResult.entry d _ => some d
  | _ => none

def processAll : List String → List (String × DiskStats) → List (String × DiskStats)
  | [], acc => acc
  | l :: ls, acc =>
    match parseDiskStatsLine l with
    | LineResult.entry d s => processAll ls (mapInsert acc d s)
    | _ => processAll ls acc

def fieldVal (l : String) (i : Nat) : Nat :=
  (parseUint64 ((goFields l).getD i "")).getD 0

def lineDiskStats (l : String) : DiskStats :=
  { ReadsCompleted := fieldVal l 3
    ReadsMerged := fieldVal l 4
    SectorsRead := fieldVal l 5
    ReadTime := fieldVal l 6
    WritesCompleted := fieldVal l 7
    WritesMerged := fieldVal l 8
    SectorsWritten := fieldVal l 9
    WriteTime := fieldVal l 10
    IoInProgress := fieldVal l 11
    IoTime := fieldVal l 12
    WeightedIoTime := fieldVal l 13 }

def c2GoodLines : List String :=
  ["8 0 sda 13 2 5 7 11 3 17 19 0 23 29", sda1Line, "junk line here"]

/-! ## Lemmas and claim theorems -/

/-- The merge loop leaves the slice unchanged (the range variable is a copy). -/
theorem mergeDiskStatsLoop_eq (fss : List Fs) (m : List (String × DiskStats)) :
    mergeDiskStatsLoop fss m = fss := by
  simp [mergeDiskStatsLoop]

theorem applyOverPartitionsAcc_eq
    (fsStats : String → partition → Option FsStatsRet)
    (filter : String → partition → Bool) :
    ∀ (cache : List (String × partition)) (acc : List Fs),
      applyOverPartitionsAcc fsStats filter cache acc = acc ++ enumFs cache fsStats filter
  | [], acc => by simp [applyOverPartitionsAcc, enumFs]
  | (d, p) :: rest, acc => by
    by_cases hf : filter d p
    · cases hstat : fsStats d p with
      | none =>
        simp [applyOverPartitionsAcc, hf, hstat, enumFs, List.filter_cons,
          List.filterMap_cons, applyOverPartitionsAcc_eq fsStats filter rest acc]
      | some r =>
        simp [applyOverPartitionsAcc, hf, hstat, enumFs, List.filter_cons,
          List.filterMap_cons, applyOverPartitionsAcc_eq fsStats filter rest (acc ++ [mkFs d p r])]
    · simp [applyOverPartitionsAcc, hf, enumFs, List.filter_cons,
        applyOverPartitionsAcc_eq fsStats filter rest acc]

/-- Whenever `getFilteredFsInfo` returns a list at all, that list is exactly
the declarative enumeration (the I/O-stats merge pass changes nothing). -/
theorem getFilteredFsInfo_ok_elim
    {cache : List (String × partition)}
    {fsStats : String → partition → Option FsStatsRet}
    {filter : String → partition → Bool}
    {withIoStats : Bool} {src : DiskStatsSource} {l : List Fs}
    (h : getFilteredFsInfo cache fsStats filter withIoStats src = ParseOutcome.ok l) :
    l = enumFs cache fsStats filter := by
  unfold getFilteredFsInfo at h
  cases withIoStats with
  | false =>
    simp [applyOverPartitionsAcc_eq] at h
    exact h.symm
  | true =>
    cases hm : getDiskStatsMap src with
    | ok m =>
      simp [hm, mergeDiskStatsLoop_eq, applyOverPartitionsAcc_eq] at h
      exact h.symm
    | err => simp [hm] at h
    | panic => simp [hm] at h

theorem getFilteredFsInfo_false_eq
    (cache : List (String × partition))
    (fsStats : String → partition → Option FsStatsRet)
    (filter : String → partition → Bool) (src : DiskStatsSource) :
    getFilteredFsInfo cache fsStats filter false src =
      ParseOutcome.ok (enumFs cache fsStats filter) := by
  unfold getFilteredFsInfo
  simp [applyOverPartitionsAcc_eq]

theorem mem_enumFs
    {cache : List (String × partition)}
    {fsStats : String → partition → Option FsStatsRet}
    {filter : String → partition → Bool} {fs : Fs} :
    fs ∈ enumFs cache fsStats filter ↔
      ∃ d p r, (d, p) ∈ cache ∧ filter d p = true ∧ fsStats d p = some r ∧ fs = mkFs d p r := by
  simp only [enumFs, List.mem_filterMap, List.mem_filter, Option.map_eq_some']
  constructor
  · rintro ⟨⟨d, p⟩, ⟨hmem, hfilt⟩, r, hstat, rfl⟩
    exact ⟨d, p, r, hmem, hfilt, hstat, rfl⟩
  · rintro ⟨d, p, r, hmem, hfilt, hstat, rfl⟩
    exact ⟨⟨d, p⟩, ⟨hmem, hfilt⟩, r, hstat, rfl⟩

/-- C1 (code bug): with `withIoStats = true` and a disk-statistics source that
has an entry for the lone device, the parsed map does contain that entry, yet
the returned record still carries the zero `DiskStats` — the merge loop at
`src/fs/fs.go` lines 140-151 assigns to a range-value copy, so the parsed
counters never reach the returned slice - contradicting the spec's "merges
matching DiskStats into each Fs record by device path". -/
theorem c1_diskstats_merge_lost :
    GetGlobalFsInfo [("/dev/sda1", sda1Partition)] sda1FsStats true
        (DiskStatsSource.content [sda1Line]) = ParseOutcome.ok [sda1Fs] ∧
    getDiskStatsMap (DiskStatsSource.content [sda1Line]) =
      ParseOutcome.ok [("/dev/sda1", sda1Stats)] ∧
    sda1Fs.DiskStats = zeroDiskStats ∧
    sda1Stats ≠ zeroDiskStats :=
  ⟨rfl, rfl, rfl, by decide⟩

/-- C3: a missing disk-statistics source yields an empty map and no error. -/
theorem c3_missing_file_ok :
    getDiskStatsMap DiskStatsSource.missing = ParseOutcome.ok [] := rfl

/-- C5: the decoded major number is `(n >>> 8) &&& 0xfff`, the decoded minor
number is `(n &&& 0xff) ||| ((n >>> 12) &&& 0xfff00)`, and `GetDirFsDevice`
feeds exactly these two values of the stat'd directory's packed device number
to the major/minor cache lookup. -/
theorem c5_major_minor_decode
    (n : Nat) (hn : n < 2 ^ 64)
    (statDev : String → Option Nat)
    (deviceInfoForMajorMinor : Nat → Nat → Option DeviceInfo)
    (dir : String) (hstat : statDev dir = some n) :
    major n = ((n >>> 8) &&& 0xfff) ∧
    minor n = ((n &&& 0xff) ||| ((n >>> 12) &&& 0xfff00)) ∧
    GetDirFsDevice statDev deviceInfoForMajorMinor dir =
      deviceInfoForMajorMinor ((n >>> 8) &&& 0xfff)
        ((n &&& 0xff) ||| ((n >>> 12) &&& 0xfff00)) := by
  refine ⟨rfl, rfl, ?_⟩
  simp [GetDirFsDevice, hstat, major, minor]

/-- Witness for C5 at the packed number `0x0811` (major 8, minor 17). -/
theorem c5_major_minor_decode_witness :
    2065 < 2 ^ 64 ∧
    ((fun _ => some 2065) "/data" = some (2065 : Nat)) ∧
    (major 2065 = ((2065 >>> 8) &&& 0xfff) ∧
     minor 2065 = ((2065 &&& 0xff) ||| ((2065 >>> 12) &&& 0xfff00)) ∧
     GetDirFsDevice (fun _ => some 2065)
         (fun a b => some ⟨"/dev/sdb1", a, b⟩) "/data" =
       (fun a b => some (⟨"/dev/sdb1", a, b⟩ : DeviceInfo)) ((2065 >>> 8) &&& 0xfff)
         ((2065 &&& 0xff) ||| ((2065 >>> 12) &&& 0xfff00))) :=
  ⟨by decide, rfl,
    c5_major_minor_decode 2065 (by decide) (fun _ => some 2065)
      (fun a b => some ⟨"/dev/sdb1", a, b⟩) "/data" rfl⟩

/-- C6: `GetFsInfoForMounts {"/data"} false` over the one-entry cache of the
spec's example yields exactly the spec's record, with zero (absent)
`DiskStats`. -/
theorem c6_mounts_concrete :
    GetFsInfoForMounts [("/dev/sdb1", c6Partition)] c6FsStats ["/data"] false
        DiskStatsSource.missing = ParseOutcome.ok [c6Fs] ∧
    c6Fs.DiskStats = zeroDiskStats :=
  ⟨rfl, rfl⟩

/-- C7: an empty directory argument fails immediately for every timeout and
execution environment, and the `du` command is never started. -/
theorem c7_empty_dir_fails (timeout : Nat) (env : ExecEnv) :
    GetDirUsage "" timeout env = (false, DuResult.err) := rfl

/-- C10: a line with fewer than three whitespace-separated fields makes the
scanner loop read `words[2]` out of bounds: the line body panics (it is
neither skipped nor an error), and so does a whole parse of a source
containing just that line. -/
theorem c10_short_line_panics (line : String) (h : (goFields line).length < 3) :
    parseDiskStatsLine line = LineResult.panic ∧
    getDiskStatsMap (DiskStatsSource.content [line]) = ParseOutcome.panic := by
  have hget : (goFields line)[2]? = none := List.getElem?_eq_none (by omega)
  have h1 : parseDiskStatsLine line = LineResult.panic := by
    simp [parseDiskStatsLine, hget]
  exact ⟨h1, by simp [getDiskStatsMap, getDiskStatsMapLines, h1]⟩

/-- Witness for C10 at the blank line. -/
theorem c10_short_line_panics_witness :
    (goFields "").length < 3 ∧
    (parseDiskStatsLine "" = LineResult.panic ∧
     getDiskStatsMap (DiskStatsSource.content [""]) = ParseOutcome.panic) :=
  ⟨by decide, c10_short_line_panics "" (by decide)⟩

/-- C4: when the stat call fails for a device that passes the filter, the
enumeration still succeeds: the failed device appears in no returned record
and every other passing device with a successful stat call is returned.
`getFilteredFsInfo` is the common body of `GetGlobalFsInfo`,
`GetFsInfoForMounts` and `GetFsInfoForDevices`, so this covers all three
bulk enumerations; the `hio` side condition discharges the independent
I/O-stats parsing step. -/
theorem c4_stat_failure_skipped
    (cache : List (String × partition))
    (fsStats : String → partition → Option FsStatsRet)
    (filter : String → partition → Bool)
    (withIoStats : Bool) (src : DiskStatsSource)
    (d : String) (p : partition)
    (hmem : (d, p) ∈ cache) (hfilt : filter d p = true)
    (hfail : ∀ p', (d, p') ∈ cache → fsStats d p' = none)
    (hio : withIoStats = false ∨ ∃ m, getDiskStatsMap src = ParseOutcome.ok m) :
    ∃ l, getFilteredFsInfo cache fsStats filter withIoStats src = ParseOutcome.ok l ∧
      (∀ fs ∈ l, fs.DeviceInfo.Device ≠ d) ∧
      (∀ d' p' r, (d', p') ∈ cache → filter d' p' = true → fsStats d' p' = some r →
        mkFs d' p' r ∈ l) := by
  have hok : getFilteredFsInfo cache fsStats filter withIoStats src =
      ParseOutcome.ok (enumFs cache fsStats filter) := by
    rcases hio with h | ⟨m, hm⟩
    · rw [h]
      exact getFilteredFsInfo_false_eq cache fsStats filter src
    · cases withIoStats with
      | false => exact getFilteredFsInfo_false_eq cache fsStats filter src
      | true =>
        unfold getFilteredFsInfo
        simp [hm, mergeDiskStatsLoop_eq, applyOverPartitionsAcc_eq]
  refine ⟨enumFs cache fsStats filter, hok, ?_, ?_⟩
  · intro fs hfs
    rcases mem_enumFs.mp hfs with ⟨d', p', r, hm', _, hs', rfl⟩
    intro hdev
    simp only [mkFs] at hdev
    rw [hdev] at hm' hs'
    rw [hfail p' hm'] at hs'
    exact Option.noConfusion hs'
  · intro d' p' r hm' hf' hs'
    exact mem_enumFs.mpr ⟨d', p', r, hm', hf', hs', rfl⟩

/-- Witness for C4: a two-device cache in which `/dev/sdc1` fails to stat;
the call still returns the `/dev/sda1` record with no error. -/
theorem c4_stat_failure_skipped_witness :
    ("/dev/sdc1", c4BadPartition) ∈ c4Cache ∧
    (∀ p', ("/dev/sdc1", p') ∈ c4Cache → sda1FsStats "/dev/sdc1" p' = none) ∧
    (∃ l, getFilteredFsInfo c4Cache sda1FsStats (fun _ _ => true) false
        DiskStatsSource.missing = ParseOutcome.ok l ∧
      (∀ fs ∈ l, fs.DeviceInfo.Device ≠ "/dev/sdc1") ∧
      (∀ d' p' r, (d', p') ∈ c4Cache → (fun _ _ => true) d' p' = true →
        sda1FsStats d' p' = some r → mkFs d' p' r ∈ l)) :=
  ⟨by decide,
   fun p' _ => by simp [sda1FsStats],
   c4_stat_failure_skipped c4Cache sda1FsStats (fun _ _ => true) false
     DiskStatsSource.missing "/dev/sdc1" c4BadPartition (by decide) rfl
     (fun p' _ => by simp [sda1FsStats]) (Or.inl rfl)⟩

/-- C8: every record returned by a bulk enumeration carries, as its
`DeviceInfo.Device`, the partition-cache key of the entry it came from, and
that entry's major and minor numbers. -/
theorem c8_device_equals_key
    (cache : List (String × partition))
    (fsStats : String → partition → Option FsStatsRet)
    (filter : String → partition → Bool)
    (withIoStats : Bool) (src : DiskStatsSource) (l : List Fs) (fs : Fs)
    (hres : getFilteredFsInfo cache fsStats filter withIoStats src = ParseOutcome.ok l)
    (hmem : fs ∈ l) :
    ∃ p, (fs.DeviceInfo.Device, p) ∈ cache ∧
      fs.DeviceInfo.Major = p.major ∧ fs.DeviceInfo.Minor = p.minor := by
  have hl := getFilteredFsInfo_ok_elim hres
  subst hl
  rcases mem_enumFs.mp hmem with ⟨d, p, r, hm, _, _, rfl⟩
  exact ⟨p, hm, rfl, rfl⟩

/-- Witness for C8 on the one-entry cache of the C6 fixture. -/
theorem c8_device_equals_key_witness :
    getFilteredFsInfo [("/dev/sdb1", c6Partition)] c6FsStats (fun _ _ => true) false
        DiskStatsSource.missing = ParseOutcome.ok [c6Fs] ∧
    c6Fs ∈ [c6Fs] ∧
    (∃ p, (c6Fs.DeviceInfo.Device, p) ∈ [("/dev/sdb1", c6Partition)] ∧
      c6Fs.DeviceInfo.Major = p.major ∧ c6Fs.DeviceInfo.Minor = p.minor) :=
  ⟨rfl, by simp,
   c8_device_equals_key [("/dev/sdb1", c6Partition)] c6FsStats (fun _ _ => true)
     false DiskStatsSource.missing [c6Fs] c6Fs rfl (by simp)⟩

theorem mapLookup_insert_self (m : List (String × DiskStats)) (k : String) (v : DiskStats) :
    mapLookup (mapInsert m k v) k = some v := by
  induction m with
  | nil => simp [mapInsert, mapLookup]
  | cons e rest ih =>
    obtain ⟨k', v'⟩ := e
    by_cases h : k' = k <;> simp [mapInsert, mapLookup, h, ih]

theorem mapLookup_insert_ne (m : List (String × DiskStats)) {k' k : String} (v : DiskStats)
    (h : k' ≠ k) : mapLookup (mapInsert m k' v) k = mapLookup m k := by
  induction m with
  | nil => simp [mapInsert, mapLookup, h]
  | cons e rest ih =>
    obtain ⟨k'', v''⟩ := e
    by_cases h2 : k'' = k'
    · simp [mapInsert, mapLookup, h2, h]
    · by_cases h3 : k'' = k <;> simp [mapInsert, mapLookup, h2, h3, ih, Ne.symm h]

theorem parseAllUint64_eq_map (ws : List String)
    (h : ∀ w ∈ ws, (parseUint64 w).isSome = true) :
    parseAllUint64 ws = some (ws.map fun w => (parseUint64 w).getD 0) := by
  induction ws with
  | nil => rfl
  | cons w ws ih =>
    obtain ⟨v, hv⟩ := Option.isSome_iff_exists.mp (h w (List.mem_cons_self w ws))
    rw [List.map_cons]
    simp only [parseAllUint64, hv, Option.getD_some,
      ih (fun w' hw' => h w' (List.mem_cons_of_mem w hw'))]

theorem map_drop_getD (ws : List String) (f : String → Nat) (i : Nat)
    (h : 3 + i < ws.length) :
    ((ws.drop 3).map f).getD i 0 = f (ws.getD (3 + i) "") := by
  rw [List.getD_eq_getElem?_getD, List.getElem?_map, List.getElem?_drop,
    List.getD_eq_getElem?_getD, List.getElem?_eq_getElem h]
  rfl

theorem getElem?_eq_getD (ws : List String) (i : Nat) (h : i < ws.length) :
    ws[i]? = some (ws.getD i "") := by
  rw [List.getD_eq_getElem?_getD, List.getElem?_eq_getElem h]
  rfl

theorem parseDiskStatsLine_skip (l : String)
    (h3 : 3 ≤ (goFields l).length)
    (hm : partitionRegexMatch ((goFields l).getD 2 "") = false) :
    parseDiskStatsLine l = LineResult.skip := by
  have h2 := getElem?_eq_getD (goFields l) 2 (by omega)
  simp only [parseDiskStatsLine, h2, hm, Bool.not_false, if_true]

theorem parseDiskStatsLine_err_short (l : String)
    (h3 : 3 ≤ (goFields l).length)
    (hm : partitionRegexMatch ((goFields l).getD 2 "") = true)
    (hshort : (goFields l).length < 14) :
    parseDiskStatsLine l = LineResult.err := by
  have h2 := getElem?_eq_getD (goFields l) 2 (by omega)
  simp only [parseDiskStatsLine, h2, hm, Bool.not_true, Bool.false_eq_true, if_false]
  rw [if_pos (show (List.drop 3 (goFields l)).length < 11 by simp; omega)]

theorem parseDiskStatsLine_entry (l : String)
    (h3 : 3 ≤ (goFields l).length)
    (hm : partitionRegexMatch ((goFields l).getD 2 "") = true)
    (hlen : (goFields l).length = 14)
    (hnum : ∀ w ∈ (goFields l).drop 3, (parseUint64 w).isSome = true) :
    parseDiskStatsLine l =
      LineResult.entry ("/dev/" ++ (goFields l).getD 2 "") (lineDiskStats l) := by
  have h2 := getElem?_eq_getD (goFields l) 2 (by omega)
  have hpar := parseAllUint64_eq_map ((goFields l).drop 3) hnum
  have hf : ∀ i, 3 + i < (goFields l).length →
      (((goFields l).drop 3).map (fun w => (parseUint64 w).getD 0)).getD i 0 =
        (parseUint64 ((goFields l).getD (3 + i) "")).getD 0 :=
    fun i hi => map_drop_getD (goFields l) _ i hi
  simp only [parseDiskStatsLine, h2, hm, Bool.not_true, Bool.false_eq_true, if_false,
    List.length_drop, hlen, hpar]
  rw [if_neg (show ¬ (14 - 3 < 11) by omega)]
  congr 1
  simp only [mkDiskStats, lineDiskStats, fieldVal, DiskStats.mk.injEq]
  exact ⟨hf 0 (by omega), hf 1 (by omega), hf 2 (by omega), hf 3 (by omega),
    hf 4 (by omega), hf 5 (by omega), hf 6 (by omega), hf 7 (by omega),
    hf 8 (by omega), hf 9 (by omega), hf 10 (by omega)⟩

theorem getDiskStatsMapLines_ok :
    ∀ (lines : List String),
      (∀ l ∈ lines, parseDiskStatsLine l ≠ LineResult.err ∧
        parseDiskStatsLine l ≠ LineResult.panic) →
      ∀ acc, getDiskStatsMapLines lines acc = ParseOutcome.ok (processAll lines acc)
  | [], _, acc => rfl
  | l :: ls, h, acc => by
    have hl := h l (List.mem_cons_self l ls)
    have hrest := fun l' hl' => h l' (List.mem_cons_of_mem l hl')
    cases hp : parseDiskStatsLine l with
    | skip =>
      simp only [getDiskStatsMapLines, processAll, hp]
      exact getDiskStatsMapLines_ok ls hrest acc
    | entry d s =>
      simp only [getDiskStatsMapLines, processAll, hp]
      exact getDiskStatsMapLines_ok ls hrest (mapInsert acc d s)
    | err => exact absurd hp hl.1
    | panic => exact absurd hp hl.2

theorem getDiskStatsMapLines_err :
    ∀ (lines : List String),
      (∀ l ∈ lines, parseDiskStatsLine l ≠ LineResult.panic) →
      (∃ l ∈ lines, parseDiskStatsLine l = LineResult.err) →
      ∀ acc, getDiskStatsMapLines lines acc = ParseOutcome.err
  | [], _, he, _ => absurd he (by simp)
  | l :: ls, hnp, he, acc => by
    have hrest := fun l' hl' => hnp l' (List.mem_cons_of_mem l hl')
    cases hp : parseDiskStatsLine l with
    | skip =>
      simp only [getDiskStatsMapLines, hp]
      refine getDiskStatsMapLines_err ls hrest ?_ acc
      rcases he with ⟨l', hl', he'⟩
      rcases List.mem_cons.mp hl' with rfl | hmem
      · exact absurd he' (by rw [hp]; intro hc; exact LineResult.noConfusion hc)
      · exact ⟨l', hmem, he'⟩
    | entry d s =>
      simp only [getDiskStatsMapLines, hp]
      refine getDiskStatsMapLines_err ls hrest ?_ (mapInsert acc d s)
      rcases he with ⟨l', hl', he'⟩
      rcases List.mem_cons.mp hl' with rfl | hmem
      · exact absurd he' (by rw [hp]; intro hc; exact LineResult.noConfusion hc)
      · exact ⟨l', hmem, he'⟩
    | err => simp only [getDiskStatsMapLines, hp]
    | panic => exact absurd hp (hnp l (List.mem_cons_self l ls))

theorem lookup_processAll_notin (k : String) :
    ∀ (lines : List String) (acc : List (String × DiskStats)),
      (∀ l ∈ lines, lineKey l ≠ some k) →
      mapLookup (processAll lines acc) k = mapLookup acc k
  | [], _, _ => rfl
  | l :: ls, acc, h => by
    have hrest := fun l' hl' => h l' (List.mem_cons_of_mem l hl')
    cases hp : parseDiskStatsLine l with
    | entry d s =>
      have hd : d ≠ k := by
        intro hdk
        exact h l (List.mem_cons_self l ls) (by simp [lineKey, hp, hdk])
      simp only [processAll, hp]
      rw [lookup_processAll_notin k ls (mapInsert acc d s) hrest,
        mapLookup_insert_ne acc s hd]
    | skip =>
      simp only [processAll, hp]
      exact lookup_processAll_notin k ls acc hrest
    | err =>
      simp only [processAll, hp]
      exact lookup_processAll_notin k ls acc hrest
    | panic =>
      simp only [processAll, hp]
      exact lookup_processAll_notin k ls acc hrest

theorem lookup_processAll_last :
    ∀ (lines : List String) (acc : List (String × DiskStats)) (l : String)
      (k : String) (v : DiskStats),
      l ∈ lines → parseDiskStatsLine l = LineResult.entry k v →
      (lines.filterMap lineKey).Nodup →
      mapLookup (processAll lines acc) k = some v
  | [], _, _, _, _, hl, _, _ => absurd hl (by simp)
  | l0 :: ls, acc, l, k, v, hl, hent, hnodup => by
    rcases List.mem_cons.mp hl with rfl | hmem
    · have hkey : lineKey l = some k := by simp [lineKey, hent]
      have hfm : (l :: ls).filterMap lineKey = k :: ls.filterMap lineKey := by
        rw [List.filterMap_cons_some hkey]
      rw [hfm] at hnodup
      have hnotin : ∀ l' ∈ ls, lineKey l' ≠ some k := by
        intro l' hl' hk'
        exact (List.nodup_cons.mp hnodup).1 (List.mem_filterMap.mpr ⟨l', hl', hk'⟩)
      simp only [processAll, hent]
      rw [lookup_processAll_notin k ls (mapInsert acc k v) hnotin,
        mapLookup_insert_self acc k v]
    · cases hp : parseDiskStatsLine l0 with
      | entry d s =>
        have hfm : (l0 :: ls).filterMap lineKey = d :: ls.filterMap lineKey :=
          List.filterMap_cons_some (show lineKey l0 = some d by simp [lineKey, hp])
        rw [hfm] at hnodup
        simp only [processAll, hp]
        exact lookup_processAll_last ls (mapInsert acc d s) l k v hmem hent
          (List.nodup_cons.mp hnodup).2
      | skip =>
        have hfm : (l0 :: ls).filterMap lineKey = ls.filterMap lineKey := by
          rw [List.filterMap_cons_none (by simp [lineKey, hp])]
        rw [hfm] at hnodup
        simp only [processAll, hp]
        exact lookup_processAll_last ls acc l k v hmem hent hnodup
      | err =>
        have hfm : (l0 :: ls).filterMap lineKey = ls.filterMap lineKey := by
          rw [List.filterMap_cons_none (by simp [lineKey, hp])]
        rw [hfm] at hnodup
        simp only [processAll, hp]
        exact lookup_processAll_last ls acc l k v hmem hent hnodup
      | panic =>
        have hfm : (l0 :: ls).filterMap lineKey = ls.filterMap lineKey := by
          rw [List.filterMap_cons_none (by simp [lineKey, hp])]
        rw [hfm] at hnodup
        simp only [processAll, hp]
        exact lookup_processAll_last ls acc l k v hmem hent hnodup

theorem parseDiskStatsLine_ne_panic (l : String) (h3 : 3 ≤ (goFields l).length) :
    parseDiskStatsLine l ≠ LineResult.panic := by
  have h2 := getElem?_eq_getD (goFields l) 2 (by omega)
  simp only [parseDiskStatsLine, h2]
  split
  · simp
  · split
    · simp
    · split <;> simp

theorem devPrefix_injective : Function.Injective (fun w : String => "/dev/" ++ w) := by
  intro a b h
  have hd := congrArg String.data h
  simp only [String.data_append] at hd
  exact String.ext (List.append_cancel_left hd)

/-- Under the token-count hypotheses, the parsed device keys are exactly the
prefixed device names of the matching lines. -/
theorem filterMap_lineKey_eq :
    ∀ (lines : List String),
      (∀ l ∈ lines, 3 ≤ (goFields l).length) →
      (∀ l ∈ lines, partitionRegexMatch ((goFields l).getD 2 "") = true →
        (goFields l).length = 14 ∧ ∀ w ∈ (goFields l).drop 3, (parseUint64 w).isSome = true) →
      lines.filterMap lineKey =
        (lines.filter fun l => partitionRegexMatch ((goFields l).getD 2 "")).map
          (fun l => "/dev/" ++ (goFields l).getD 2 "")
  | [], _, _ => rfl
  | l :: ls, h3, hM => by
    have ih := filterMap_lineKey_eq ls (fun l' h => h3 l' (List.mem_cons_of_mem l h))
      (fun l' h => hM l' (List.mem_cons_of_mem l h))
    by_cases hm : partitionRegexMatch ((goFields l).getD 2 "") = true
    · obtain ⟨hlen, hnum⟩ := hM l (List.mem_cons_self l ls) hm
      have hent := parseDiskStatsLine_entry l (h3 l (List.mem_cons_self l ls)) hm hlen hnum
      have hfc : (l :: ls).filter (fun l' => partitionRegexMatch ((goFields l').getD 2 "")) =
          l :: ls.filter (fun l' => partitionRegexMatch ((goFields l').getD 2 "")) :=
        List.filter_cons_of_pos hm
      rw [List.filterMap_cons_some
          (show lineKey l = some ("/dev/" ++ (goFields l).getD 2 "") by simp [lineKey, hent]),
        hfc, List.map_cons, ih]
    · have hskip := parseDiskStatsLine_skip l (h3 l (List.mem_cons_self l ls))
        (by simpa using hm)
      have hfc : (l :: ls).filter (fun l' => partitionRegexMatch ((goFields l').getD 2 "")) =
          ls.filter (fun l' => partitionRegexMatch ((goFields l').getD 2 "")) :=
        List.filter_cons_of_neg hm
      rw [List.filterMap_cons_none (show lineKey l = none by simp [lineKey, hskip]),
        hfc, ih]

theorem nodup_lineKey_of_nodup_names (lines : List String)
    (h3 : ∀ l ∈ lines, 3 ≤ (goFields l).length)
    (hM : ∀ l ∈ lines, partitionRegexMatch ((goFields l).getD 2 "") = true →
      (goFields l).length = 14 ∧ ∀ w ∈ (goFields l).drop 3, (parseUint64 w).isSome = true)
    (hnames : ((lines.filter fun l => partitionRegexMatch ((goFields l).getD 2 "")).map
      (fun l => (goFields l).getD 2 "")).Nodup) :
    (lines.filterMap lineKey).Nodup := by
  rw [filterMap_lineKey_eq lines h3 hM]
  have hmm : (lines.filter fun l => partitionRegexMatch ((goFields l).getD 2 "")).map
      (fun l => "/dev/" ++ (goFields l).getD 2 "") =
      ((lines.filter fun l => partitionRegexMatch ((goFields l).getD 2 "")).map
        (fun l => (goFields l).getD 2 "")).map (fun w => "/dev/" ++ w) := by
    rw [List.map_map]
    rfl
  rw [hmm]
  exact hnames.map devPrefix_injective

/-- C2 (amended): over a source whose every line has at least three fields,
(1) if every matching line carries exactly 11 parseable 64-bit counters and
the matching lines' device names are pairwise distinct, the parse succeeds
and maps each matching device, under the `/dev` prefix, to its line's tokens
4-14 in declared field order; (2) if some matching line has fewer than 11
fields after the device name, the whole call returns a parse error. -/
theorem c2_parse_fields (lines : List String)
    (hTok : ∀ l ∈ lines, 3 ≤ (goFields l).length) :
    ((∀ l ∈ lines, partitionRegexMatch ((goFields l).getD 2 "") = true →
        (goFields l).length = 14 ∧ ∀ w ∈ (goFields l).drop 3, (parseUint64 w).isSome = true) →
      ((lines.filter fun l => partitionRegexMatch ((goFields l).getD 2 "")).map
        (fun l => (goFields l).getD 2 "")).Nodup →
      ∃ m, getDiskStatsMap (DiskStatsSource.content lines) = ParseOutcome.ok m ∧
        ∀ l ∈ lines, partitionRegexMatch ((goFields l).getD 2 "") = true →
          mapLookup m ("/dev/" ++ (goFields l).getD 2 "") = some (lineDiskStats l)) ∧
    ((∃ l ∈ lines, partitionRegexMatch ((goFields l).getD 2 "") = true ∧
        (goFields l).length < 14) →
      getDiskStatsMap (DiskStatsSource.content lines) = ParseOutcome.err) := by
  constructor
  · intro hM hnames
    have hgood : ∀ l ∈ lines, parseDiskStatsLine l ≠ LineResult.err ∧
        parseDiskStatsLine l ≠ LineResult.panic := by
      intro l hl
      by_cases hm : partitionRegexMatch ((goFields l).getD 2 "") = true
      · obtain ⟨hlen, hnum⟩ := hM l hl hm
        rw [parseDiskStatsLine_entry l (hTok l hl) hm hlen hnum]
        exact ⟨by simp, by simp⟩
      · rw [parseDiskStatsLine_skip l (hTok l hl) (by simpa using hm)]
        exact ⟨by simp, by simp⟩
    refine ⟨processAll lines [], getDiskStatsMapLines_ok lines hgood [], ?_⟩
    intro l hl hm
    obtain ⟨hlen, hnum⟩ := hM l hl hm
    exact lookup_processAll_last lines [] l ("/dev/" ++ (goFields l).getD 2 "")
      (lineDiskStats l) hl (parseDiskStatsLine_entry l (hTok l hl) hm hlen hnum)
      (nodup_lineKey_of_nodup_names lines hTok hM hnames)
  · rintro ⟨l, hl, hm, hshort⟩
    exact getDiskStatsMapLines_err lines
      (fun l' hl' => parseDiskStatsLine_ne_panic l' (hTok l' hl'))
      ⟨l, hl, parseDiskStatsLine_err_short l (hTok l hl) hm hshort⟩ []

/-- Witness for C2 at a three-line source: two well-formed matching lines and
one non-matching line. -/
theorem c2_parse_fields_witness :
    (∀ l ∈ c2GoodLines, 3 ≤ (goFields l).length) ∧
    (((∀ l ∈ c2GoodLines, partitionRegexMatch ((goFields l).getD 2 "") = true →
        (goFields l).length = 14 ∧ ∀ w ∈ (goFields l).drop 3, (parseUint64 w).isSome = true) →
      ((c2GoodLines.filter fun l => partitionRegexMatch ((goFields l).getD 2 "")).map
        (fun l => (goFields l).getD 2 "")).Nodup →
      ∃ m, getDiskStatsMap (DiskStatsSource.content c2GoodLines) = ParseOutcome.ok m ∧
        ∀ l ∈ c2GoodLines, partitionRegexMatch ((goFields l).getD 2 "") = true →
          mapLookup m ("/dev/" ++ (goFields l).getD 2 "") = some (lineDiskStats l)) ∧
    ((∃ l ∈ c2GoodLines, partitionRegexMatch ((goFields l).getD 2 "") = true ∧
        (goFields l).length < 14) →
      getDiskStatsMap (DiskStatsSource.content c2GoodLines) = ParseOutcome.err)) :=
  ⟨by decide, c2_parse_fields c2GoodLines (by decide)⟩

/-- Counterexample to C2 as stated: the source `["", sda1Line]` satisfies the
claim's hypothesis (its only line with a pattern-matching third token is
well-formed with 11 numeric fields), yet the parse neither returns a map nor
a parse error — it panics on the blank line. -/
theorem c2_counterexample :
    (∀ l ∈ ["", sda1Line], partitionRegexMatch ((goFields l).getD 2 "") = true →
      (goFields l).length = 14 ∧ ∀ w ∈ (goFields l).drop 3, (parseUint64 w).isSome = true) ∧
    getDiskStatsMap (DiskStatsSource.content ["", sda1Line]) = ParseOutcome.panic := by
  decide
